import Mathlib

/-!
Verification of the scheduler helper core of the curve MDS scheduler
(file src/mds/schedule/scheduler_helper.cpp).

The C++ code is shallowly embedded: std::map containers become association
lists (key-value pair lists with unique keys maintained by the operations),
machine ints become Int, the float range percentage becomes a rational
number, and the topology adapter becomes a structure of query functions.
Randomized shuffles become explicitly injected shuffle functions that are
assumed (in theorems) to produce permutations, and std::sort becomes
List.mergeSort on the same comparison key.
-/

namespace Curve

/-- Chunkserver identifiers; the code uses an integer type with a
distinguished uninitialized sentinel. -/
abbrev CsId := Nat

/-- Zone identifiers. -/
abbrev ZoneId := Nat

/-- Sentinel meaning that no chunkserver is given for a role. -/
def UNINTIALIZE_ID : CsId := 0

/-- One replica placement: chunkserver id and its zone, as used by the
scheduler helper. -/
structure PeerInfo where
  id : CsId
  zoneId : ZoneId
deriving DecidableEq

/-- Copyset snapshot: the (logical pool id, copyset id) key and the list of
replica placements. -/
structure CopySetInfo where
  id : Nat × Nat
  peers : List PeerInfo
deriving DecidableEq

/-- Chunkserver snapshot: placement info plus the offline flag queried by
IsOffline in the code. -/
structure ChunkServerInfo where
  info : PeerInfo
  offline : Bool
deriving DecidableEq

/-- Offline test on a chunkserver snapshot. -/
def ChunkServerInfo.IsOffline (c : ChunkServerInfo) : Bool := c.offline

/-- The topology adapter interface consumed by the helper: chunkserver
lookup (GetChunkServerInfo, a failed lookup modelled as none), scatter maps
(GetChunkServerScatterMap, a failed lookup leaves the out-parameter empty,
modelled by returning the empty map), standard zone count per logical pool
(GetStandardZoneNumInLogicalPool) and the full copyset list
(GetCopySetInfos). -/
structure TopoAdapter where
  chunkServerInfo : CsId → Option ChunkServerInfo
  scatterMap : CsId → List (Nat × Nat)
  standardZoneNum : Nat → Int
  copysets : List CopySetInfo

/-- Lookup in an association list, mirroring std::map find/count. -/
def lookupA {β : Type} (m : List (Nat × β)) (k : Nat) : Option β :=
  (m.find? (fun q => q.1 == k)).map (fun q => q.2)

/-- Update the value stored at a key in place, leaving other entries
untouched. -/
def updateA {β : Type} (m : List (Nat × β)) (k : Nat) (f : β → β) :
    List (Nat × β) :=
  m.map (fun q => if q.1 == k then (q.1, f q.2) else q)

/-- Erase a key, mirroring std::map erase. -/
def eraseA {β : Type} (m : List (Nat × β)) (k : Nat) : List (Nat × β) :=
  m.filter (fun q => q.1 != k)

/-- Key list of an association list. -/
def keysA {β : Type} (m : List (Nat × β)) : List Nat :=
  m.map (fun q => q.1)

/-- Increment the count stored at a key, inserting count one when the key is
absent. This is the idiom "if count > 0 then m[k] += 1 else m[k] = 1" used
throughout the C++ file. -/
def incr (m : List (Nat × Nat)) (k : Nat) : List (Nat × Nat) :=
  match lookupA m k with
  | some _ => updateA m k (fun v => v + 1)
  | none => m ++ [(k, 1)]

/-- Decrement the count stored at a key, erasing the entry when the count is
at most one; an absent key is left untouched (the C++ operator[] inserts a
zero which the erase branch immediately removes). -/
def decrErase (m : List (Nat × Nat)) (k : Nat) : List (Nat × Nat) :=
  match lookupA m k with
  | none => m
  | some v => if v ≤ 1 then eraseA m k else updateA m k (fun v => v - 1)

/-- Count lookup with default, mirroring "num = 0; if found num = m[k]". -/
def findD (m : List (Nat × Nat)) (k : Nat) (d : Nat) : Nat :=
  (lookupA m k).getD d

/-- Write the first component of the pair stored at a key; a missing entry is
default-constructed as (0, 0) first, mirroring std::map operator[] on a
pair value. -/
def setFst (m : List (Nat × (Int × Int))) (k : Nat) (v : Int) :
    List (Nat × (Int × Int)) :=
  match lookupA m k with
  | some _ => updateA m k (fun pr => (v, pr.2))
  | none => m ++ [(k, (v, 0))]

/-- Write the second component of the pair stored at a key; a missing entry
is default-constructed as (0, 0) first. -/
def setSnd (m : List (Nat × (Int × Int))) (k : Nat) (v : Int) :
    List (Nat × (Int × Int)) :=
  match lookupA m k with
  | some _ => updateA m k (fun pr => (pr.1, v))
  | none => m ++ [(k, (0, v))]

/-- Truncation of a rational towards zero, the conversion applied when the
C++ code stores the float product minScatterWidth * (1 + rangePercent) into
an int. -/
def truncToInt (q : ℚ) : Int := q.num.tdiv (q.den : Int)

/-- Upper end of the acceptable scatter-width range, as computed by the
first line of SatisfyScatterWidth. -/
def maxValueOf (minScatterWidth : Int) (scatterWidthRangePerent : ℚ) : Int :=
  truncToInt ((minScatterWidth : ℚ) * (1 + scatterWidthRangePerent))

/-- SchedulerHelper::SatisfyScatterWidth: the asymmetric acceptance predicate
on a single node's before/after scatter width. -/
def SatisfyScatterWidth (target : Bool) (oldValue newValue : Int)
    (minScatterWidth : Int) (scatterWidthRangePerent : ℚ) : Bool :=
  let maxValue : Int := maxValueOf minScatterWidth scatterWidthRangePerent
  if newValue < minScatterWidth then
    if !target then
      if newValue - oldValue < 0 then false else true
    else
      if newValue - oldValue < 1 then false else true
  else if newValue > maxValue then
    if !target then
      if newValue - oldValue > 0 then false else true
    else
      if newValue - oldValue ≥ 0 then false else true
  else
    true

/-- Loop body of SchedulerHelper::CalculateAffectOfMigration over the peers
of the copyset: peers equal to the source are skipped; for every other peer
the current scatter map is fetched, the before width recorded, the target
map gains the peer, the peer map gains the target and loses the source, the
source map loses the peer, and the after width is recorded. The state is
(targetMap, sourceMap, out). -/
def migrStep (source target : CsId) (topo : TopoAdapter)
    (st : List (Nat × Nat) × List (Nat × Nat) × List (Nat × (Int × Int)))
    (peer : PeerInfo) :
    List (Nat × Nat) × List (Nat × Nat) × List (Nat × (Int × Int)) :=
  if peer.id == source then st
  else
    let tmpMap := topo.scatterMap peer.id
    let out := setFst st.2.2 peer.id (tmpMap.length : Int)
    let targetMap :=
      if target != UNINTIALIZE_ID then incr st.1 peer.id else st.1
    let tmpMap :=
      if target != UNINTIALIZE_ID then incr tmpMap target else tmpMap
    let tmpMap :=
      if source != UNINTIALIZE_ID then decrErase tmpMap source else tmpMap
    let sourceMap :=
      if source != UNINTIALIZE_ID then decrErase st.2.1 peer.id else st.2.1
    let out := setSnd out peer.id (tmpMap.length : Int)
    (targetMap, sourceMap, out)

/-- SchedulerHelper::CalculateAffectOfMigration: simulate moving one replica
of the copyset from source to target (either may be the uninitialized
sentinel) and return the map node id to (scatter width before, scatter
width after). -/
def CalculateAffectOfMigration (copySetInfo : CopySetInfo)
    (source target : CsId) (topo : TopoAdapter) : List (Nat × (Int × Int)) :=
  let targetMap :=
    if target != UNINTIALIZE_ID then topo.scatterMap target else []
  let out : List (Nat × (Int × Int)) :=
    if target != UNINTIALIZE_ID then
      setFst [] target (targetMap.length : Int) else []
  let sourceMap :=
    if source != UNINTIALIZE_ID then topo.scatterMap source else []
  let out :=
    if source != UNINTIALIZE_ID then
      setFst out source (sourceMap.length : Int) else out
  let st := copySetInfo.peers.foldl (migrStep source target topo)
    (targetMap, sourceMap, out)
  let out :=
    if target != UNINTIALIZE_ID then
      setSnd st.2.2 target (st.1.length : Int) else st.2.2
  if source != UNINTIALIZE_ID then
    setSnd out source (st.2.1.length : Int) else out

/-- SchedulerHelper::InvovledReplicasSatisfyScatterWidthAfterMigration:
computes the migration impact, then checks every entry except the ignored
node against SatisfyScatterWidth (target flag set exactly on the target
node), while accumulating the net scatter-width change over all checked
entries. Returns (all nodes satisfied, accumulated change). -/
def InvovledReplicasSatisfyScatterWidthAfterMigration
    (copySetInfo : CopySetInfo) (source target ignore : CsId)
    (topo : TopoAdapter) (minScatterWidth : Int)
    (scatterWidthRangePerent : ℚ) : Bool × Int :=
  let out := CalculateAffectOfMigration copySetInfo source target topo
  out.foldl
    (fun acc e =>
      if e.1 == ignore then acc
      else
        let allSatisfy :=
          if SatisfyScatterWidth (e.1 == target) e.2.1 e.2.2 minScatterWidth
              scatterWidthRangePerent then acc.1
          else false
        (allSatisfy, acc.2 + (e.2.2 - e.2.1)))
    (true, 0)

/-- SchedulerHelper::SatisfyZoneAndScatterWidthLimit: resolve the target
chunkserver and the pool's standard zone count, build the per-zone replica
histogram of the candidate copyset while scanning for the source's zone,
simulate removing the source zone and adding the target zone, reject when
fewer distinct zones than required remain, otherwise delegate to the
scatter-width feasibility check with no ignored node. The local variable
holding the source zone is uninitialized in the C++ code until a peer with
the source id is seen; the extra uninitZone argument models its arbitrary
initial contents. -/
def SatisfyZoneAndScatterWidthLimit (topo : TopoAdapter)
    (target source : CsId) (candidate : CopySetInfo) (minScatterWidth : Int)
    (scatterWidthRangePerent : ℚ) (uninitZone : ZoneId) : Bool :=
  match topo.chunkServerInfo target with
  | none => false
  | some targetInfo =>
    let targetZone := targetInfo.info.zoneId
    let minZone := topo.standardZoneNum candidate.id.1
    if minZone ≤ 0 then false
    else
      let st := candidate.peers.foldl
        (fun (st : List (Nat × Nat) × ZoneId) info =>
          (incr st.1 info.zoneId,
           if source == info.id then info.zoneId else st.2))
        ([], uninitZone)
      let zoneList := decrErase st.1 st.2
      let zoneList := incr zoneList targetZone
      if (zoneList.length : Int) < minZone then false
      else
        (InvovledReplicasSatisfyScatterWidthAfterMigration candidate source
          target UNINTIALIZE_ID topo minScatterWidth
          scatterWidthRangePerent).1

/-- SchedulerHelper::SortDistribute: shuffle each per-node copyset list and
the node ordering, then sort by copyset-list length in descending order.
The two std::shuffle calls are injected as explicit functions. -/
def SortDistribute (shuffleEach : List CopySetInfo → List CopySetInfo)
    (shuffleAll :
      List (CsId × List CopySetInfo) → List (CsId × List CopySetInfo))
    (distribute : List (CsId × List CopySetInfo)) :
    List (CsId × List CopySetInfo) :=
  let desc := distribute.map (fun it => (it.1, shuffleEach it.2))
  let desc := shuffleAll desc
  desc.mergeSort (fun c1 c2 => decide (c2.2.length ≤ c1.2.length))

/-- Histogram of copyset membership counts per chunkserver, the first loop
of SortChunkServerByCopySetNumAsc. -/
def copysetNumInCsOf (topo : TopoAdapter) : List (Nat × Nat) :=
  topo.copysets.foldl
    (fun m c => c.peers.foldl (fun m q => incr m q.id) m) []

/-- SchedulerHelper::SortChunkServerByCopySetNumAsc: pair each chunkserver
with its copyset count, shuffle, sort ascending by count, and return the
chunkservers in that order. The std::shuffle call is injected. -/
def SortChunkServerByCopySetNumAsc
    (shuffle :
      List (ChunkServerInfo × Nat) → List (ChunkServerInfo × Nat))
    (chunkserverList : List ChunkServerInfo) (topo : TopoAdapter) :
    List ChunkServerInfo :=
  let copysetNumInCs := copysetNumInCsOf topo
  let transfer := chunkserverList.map
    (fun cs => (cs, findD copysetNumInCs cs.info.id 0))
  let transfer := shuffle transfer
  let transfer := transfer.mergeSort (fun c1 c2 => decide (c1.2 ≤ c2.2))
  transfer.map (fun it => it.1)

/-- SchedulerHelper::SortScatterWitAffected: shuffle, then sort ascending by
the affected scatter-width delta. The std::shuffle call is injected. -/
def SortScatterWitAffected
    (shuffle : List (CsId × Int) → List (CsId × Int))
    (candidates : List (CsId × Int)) : List (CsId × Int) :=
  (shuffle candidates).mergeSort (fun c1 c2 => decide (c1.2 ≤ c2.2))

/-- First phase step of CopySetDistributionInOnlineChunkServer: register one
copyset under every one of its peers. -/
def registerCopyset (out : List (Nat × List CopySetInfo))
    (item : CopySetInfo) : List (Nat × List CopySetInfo) :=
  item.peers.foldl
    (fun out peer =>
      match lookupA out peer.id with
      | none => out ++ [(peer.id, [item])]
      | some _ => updateA out peer.id (fun l => l ++ [item]))
    out

/-- Second phase step of CopySetDistributionInOnlineChunkServer: erase an
offline roster member, give an online absent member an empty list. -/
def rosterStep (out : List (Nat × List CopySetInfo))
    (item : ChunkServerInfo) : List (Nat × List CopySetInfo) :=
  if item.IsOffline then eraseA out item.info.id
  else
    match lookupA out item.info.id with
    | none => out ++ [(item.info.id, [])]
    | some _ => out

/-- SchedulerHelper::CopySetDistributionInOnlineChunkServer: register every
copyset under each of its peers, then walk the chunkserver roster erasing
offline members and inserting empty lists for online absent members. The
out map is an in/out parameter in the C++ code, so its initial contents are
an explicit argument. -/
def CopySetDistributionInOnlineChunkServer (copysetList : List CopySetInfo)
    (chunkserverList : List ChunkServerInfo)
    (out : List (Nat × List CopySetInfo)) :
    List (Nat × List CopySetInfo) :=
  let out := copysetList.foldl registerCopyset out
  chunkserverList.foldl rosterStep out

/-- Target-map component of the migration loop body: the target gains every
peer of the copyset other than the source as a co-hosted partner. -/
def tStep (source target : CsId) (m : List (Nat × Nat)) (peer : PeerInfo) :
    List (Nat × Nat) :=
  if peer.id == source then m
  else if target != UNINTIALIZE_ID then incr m peer.id else m

/-- Source-map component of the migration loop body: the source loses one
co-hosting unit with every peer other than itself. -/
def sStep (source : CsId) (m : List (Nat × Nat)) (peer : PeerInfo) :
    List (Nat × Nat) :=
  if peer.id == source then m
  else if source != UNINTIALIZE_ID then decrErase m peer.id else m

/-- Simulated scatter map of a non-source peer after the migration: it gains
the target as a partner and loses the source. -/
def peerAfter (topo : TopoAdapter) (source target : CsId) (pid : CsId) :
    List (Nat × Nat) :=
  let m := topo.scatterMap pid
  let m := if target != UNINTIALIZE_ID then incr m target else m
  if source != UNINTIALIZE_ID then decrErase m source else m

/-- Out-map component of the migration loop body: record the peer's width
before and after the simulated move. -/
def oStep (source target : CsId) (topo : TopoAdapter)
    (out : List (Nat × (Int × Int))) (peer : PeerInfo) :
    List (Nat × (Int × Int)) :=
  if peer.id == source then out
  else
    setSnd (setFst out peer.id ((topo.scatterMap peer.id).length : Int))
      peer.id ((peerAfter topo source target peer.id).length : Int)

/-- Simulated scatter map of the target after the migration. -/
def targetMapAfterMigration (c : CopySetInfo) (source target : CsId)
    (topo : TopoAdapter) : List (Nat × Nat) :=
  c.peers.foldl (tStep source target) (topo.scatterMap target)

/-- Simulated scatter map of the source after the migration. -/
def sourceMapAfterMigration (c : CopySetInfo) (source : CsId)
    (topo : TopoAdapter) : List (Nat × Nat) :=
  c.peers.foldl (sStep source) (topo.scatterMap source)

/-- Per-zone replica histogram of a peer list, as built by the loop of
SatisfyZoneAndScatterWidthLimit. -/
def zoneHist (peers : List PeerInfo) : List (Nat × Nat) :=
  peers.foldl (fun m q => incr m q.zoneId) []

/-- Value of the local source-zone variable after the peer loop of
SatisfyZoneAndScatterWidthLimit: the zone of the last peer whose id equals
the source, or the uninitialized contents when no peer matches. -/
def sourceZoneOf (peers : List PeerInfo) (source : CsId)
    (uninitZone : ZoneId) : ZoneId :=
  peers.foldl (fun z q => if source == q.id then q.zoneId else z) uninitZone

/-- Concrete topology used as witness input: chunkservers 1, 2, 3 host one
common copyset, chunkservers 4 and 10 are idle, the pool requires three
zones. -/
def topoW : TopoAdapter where
  chunkServerInfo := fun k =>
    if k == 10 then some ⟨⟨10, 1⟩, false⟩ else none
  scatterMap := fun k =>
    if k == 1 then [(2, 1), (3, 1)]
    else if k == 2 then [(1, 1), (3, 1)]
    else if k == 3 then [(1, 1), (2, 1)]
    else []
  standardZoneNum := fun _ => 3
  copysets := []

/-- Concrete copyset used as witness input: peers 1, 2, 3 in zones 1, 2, 3. -/
def copysetW : CopySetInfo := ⟨(1, 1), [⟨1, 1⟩, ⟨2, 2⟩, ⟨3, 3⟩]⟩

/-! ### Association list lemmas -/

theorem lookupA_cons {β : Type} (a : Nat × β) (m : List (Nat × β)) (k : Nat) :
    lookupA (a :: m) k = if a.1 == k then some a.2 else lookupA m k := by
  by_cases h : a.1 == k
  · simp [lookupA, List.find?_cons_of_pos, h]
  · simp [lookupA, List.find?_cons_of_neg, h]

theorem lookupA_none_iff {β : Type} (m : List (Nat × β)) (k : Nat) :
    lookupA m k = none ↔ ∀ q ∈ m, q.1 ≠ k := by
  induction m with
  | nil => simp [lookupA]
  | cons a m ih =>
      rw [lookupA_cons]
      by_cases h : a.1 = k
      · simp [h]
      · simp [h, ih]

theorem lookupA_append_self_none {β : Type} {m : List (Nat × β)} {k : Nat}
    (v : β) (h : lookupA m k = none) :
    lookupA (m ++ [(k, v)]) k = some v := by
  induction m with
  | nil => simp [lookupA]
  | cons a m ih =>
      rw [List.cons_append, lookupA_cons]
      rw [lookupA_cons] at h
      by_cases ha : a.1 = k
      · simp [ha] at h
      · simp [ha] at h ⊢
        exact ih h

theorem lookupA_append_other {β : Type} (m : List (Nat × β)) (k j : Nat)
    (v : β) (h : j ≠ k) : lookupA (m ++ [(k, v)]) j = lookupA m j := by
  induction m with
  | nil => simp [lookupA, Ne.symm h]
  | cons a m ih =>
      rw [List.cons_append, lookupA_cons, lookupA_cons]
      by_cases ha : a.1 = j
      · simp [ha]
      · simp [ha, ih]

theorem updateA_cons {β : Type} (a : Nat × β) (m : List (Nat × β)) (k : Nat)
    (f : β → β) :
    updateA (a :: m) k f =
      (if a.1 == k then (a.1, f a.2) else a) :: updateA m k f := rfl

theorem eraseA_cons {β : Type} (a : Nat × β) (m : List (Nat × β)) (k : Nat) :
    eraseA (a :: m) k =
      if a.1 ≠ k then a :: eraseA m k else eraseA m k := by
  simp only [eraseA, List.filter_cons, bne_iff_ne, decide_eq_true_eq]

theorem lookupA_updateA_self {β : Type} (m : List (Nat × β)) (k : Nat)
    (f : β → β) : lookupA (updateA m k f) k = (lookupA m k).map f := by
  induction m with
  | nil => simp [lookupA, updateA]
  | cons a m ih =>
      rw [updateA_cons]
      by_cases ha : a.1 = k
      · simp [lookupA_cons, ha]
      · simp [lookupA_cons, ha, ih]

theorem lookupA_updateA_other {β : Type} (m : List (Nat × β)) (k j : Nat)
    (f : β → β) (h : j ≠ k) : lookupA (updateA m k f) j = lookupA m j := by
  have h' : ¬k = j := Ne.symm h
  induction m with
  | nil => simp [lookupA, updateA]
  | cons a m ih =>
      rw [updateA_cons]
      by_cases ha : a.1 = k
      · have haj : ¬a.1 = j := by rw [ha]; exact Ne.symm h
        simp [lookupA_cons, ha, haj, h, h', ih]
      · by_cases haj : a.1 = j
        · simp [lookupA_cons, ha, haj, h, h']
        · simp [lookupA_cons, ha, haj, h, h', ih]

theorem lookupA_eraseA_self {β : Type} (m : List (Nat × β)) (k : Nat) :
    lookupA (eraseA m k) k = none := by
  rw [lookupA_none_iff]
  intro q hq
  have := List.of_mem_filter hq
  simpa using this

theorem lookupA_eraseA_other {β : Type} (m : List (Nat × β)) (k j : Nat)
    (h : j ≠ k) : lookupA (eraseA m k) j = lookupA m j := by
  have h' : ¬k = j := Ne.symm h
  induction m with
  | nil => simp [eraseA]
  | cons a m ih =>
      rw [eraseA_cons]
      by_cases ha : a.1 = k
      · have haj : ¬a.1 = j := by rw [ha]; exact Ne.symm h
        simp [lookupA_cons, ha, haj, h, h', ih]
      · by_cases haj : a.1 = j
        · simp [lookupA_cons, ha, haj, h, h']
        · simp [lookupA_cons, ha, haj, h, h', ih]

theorem eraseA_of_lookup_none {β : Type} (m : List (Nat × β)) (k : Nat)
    (h : lookupA m k = none) : eraseA m k = m := by
  rw [lookupA_none_iff] at h
  apply List.filter_eq_self.mpr
  intro q hq
  simpa using h q hq

theorem mem_of_lookupA {β : Type} {m : List (Nat × β)} {k : Nat} {v : β}
    (h : lookupA m k = some v) : (k, v) ∈ m := by
  induction m with
  | nil => simp [lookupA] at h
  | cons a m ih =>
      rw [lookupA_cons] at h
      by_cases ha : a.1 = k
      · simp only [ha, beq_self_eq_true, if_true, Option.some.injEq] at h
        have : a = (k, v) := by
          cases a
          simp_all
        simp [this]
      · simp only [ha, beq_iff_eq, if_false, if_neg ha] at h
        exact List.mem_cons_of_mem _ (ih h)

theorem lookupA_of_mem_nodup {β : Type} {m : List (Nat × β)} {q : Nat × β}
    (hnd : (keysA m).Nodup) (hq : q ∈ m) : lookupA m q.1 = some q.2 := by
  induction m with
  | nil => cases hq
  | cons a m ih =>
      rw [keysA, List.map_cons, List.nodup_cons] at hnd
      rcases List.mem_cons.mp hq with h | h
      · subst h
        rw [lookupA_cons, if_pos (by simp)]
      · have haq : a.1 ≠ q.1 := by
          intro hc
          exact hnd.1 (hc ▸ List.mem_map_of_mem (fun r => r.1) h)
        rw [lookupA_cons, if_neg (by simpa using haq)]
        exact ih hnd.2 h

/-! ### Generic foldl lemmas -/

theorem foldl_invariant {α : Type _} {γ : Type _} (P : α → Prop)
    (f : α → γ → α) (l : List γ) (a : α)
    (hpres : ∀ b x, x ∈ l → P b → P (f b x)) (ha : P a) :
    P (l.foldl f a) := by
  induction l generalizing a with
  | nil => exact ha
  | cons x xs ih =>
      exact ih (f a x) (fun b y hy => hpres b y (List.mem_cons_of_mem _ hy))
        (hpres a x (List.mem_cons_self _ _) ha)

theorem foldl_establish {α : Type _} {γ : Type _} (P : α → Prop)
    (f : α → γ → α) (l : List γ) (x0 : γ) (hx : x0 ∈ l)
    (hest : ∀ b, P (f b x0))
    (hpres : ∀ b x, x ∈ l → P b → P (f b x)) (a : α) :
    P (l.foldl f a) := by
  induction l generalizing a with
  | nil => cases hx
  | cons x xs ih =>
      rcases List.mem_cons.mp hx with h | h
      · subst h
        exact foldl_invariant P f xs (f a x0)
          (fun b y hy => hpres b y (List.mem_cons_of_mem _ hy)) (hest a)
      · exact ih h (fun b y hy => hpres b y (List.mem_cons_of_mem _ hy)) (f a x)

theorem foldl_pair {α β δ : Type _} (f : α → δ → α) (g : β → δ → β)
    (l : List δ) (a : α) (b : β) :
    l.foldl (fun st x => (f st.1 x, g st.2 x)) (a, b) =
      (l.foldl f a, l.foldl g b) := by
  induction l generalizing a b with
  | nil => rfl
  | cons x xs ih => exact ih (f a x) (g b x)

theorem foldl_triple {α β γ δ : Type _} (f : α → δ → α) (g : β → δ → β)
    (h : γ → δ → γ) (l : List δ) (a : α) (b : β) (c : γ) :
    l.foldl (fun st x => (f st.1 x, g st.2.1 x, h st.2.2 x)) (a, b, c) =
      (l.foldl f a, l.foldl g b, l.foldl h c) := by
  induction l generalizing a b c with
  | nil => rfl
  | cons x xs ih => exact ih (f a x) (g b x) (h c x)

/-! ### Lemmas about the impact map writes -/

theorem lookupA_setFst_self (m : List (Nat × (Int × Int))) (k : Nat)
    (v : Int) :
    lookupA (setFst m k v) k = some (v, ((lookupA m k).getD (0, 0)).2) := by
  unfold setFst
  cases h : lookupA m k with
  | none => simp [h, lookupA_append_self_none]
  | some pr => simp [h, lookupA_updateA_self]

theorem lookupA_setFst_other (m : List (Nat × (Int × Int))) (k j : Nat)
    (v : Int) (h : j ≠ k) : lookupA (setFst m k v) j = lookupA m j := by
  unfold setFst
  cases hm : lookupA m k with
  | none => exact lookupA_append_other m k j _ h
  | some pr => exact lookupA_updateA_other m k j _ h

theorem lookupA_setSnd_self (m : List (Nat × (Int × Int))) (k : Nat)
    (v : Int) :
    lookupA (setSnd m k v) k = some (((lookupA m k).getD (0, 0)).1, v) := by
  unfold setSnd
  cases h : lookupA m k with
  | none => simp [h, lookupA_append_self_none]
  | some pr => simp [h, lookupA_updateA_self]

theorem lookupA_setSnd_other (m : List (Nat × (Int × Int))) (k j : Nat)
    (v : Int) (h : j ≠ k) : lookupA (setSnd m k v) j = lookupA m j := by
  unfold setSnd
  cases hm : lookupA m k with
  | none => exact lookupA_append_other m k j _ h
  | some pr => exact lookupA_updateA_other m k j _ h

theorem lookupA_setSnd_setFst (m : List (Nat × (Int × Int))) (k : Nat)
    (a b : Int) : lookupA (setSnd (setFst m k a) k b) k = some (a, b) := by
  rw [lookupA_setSnd_self, lookupA_setFst_self]
  rfl

theorem oStep_other (source target : CsId) (topo : TopoAdapter)
    (out : List (Nat × (Int × Int))) (peer : PeerInfo) (k : Nat)
    (h : peer.id ≠ k) :
    lookupA (oStep source target topo out peer) k = lookupA out k := by
  unfold oStep
  by_cases hs : (peer.id == source) = true
  · rw [if_pos hs]
  · rw [if_neg hs, lookupA_setSnd_other _ _ _ _ (Ne.symm h),
      lookupA_setFst_other _ _ _ _ (Ne.symm h)]

theorem oStep_write (source target : CsId) (topo : TopoAdapter)
    (out : List (Nat × (Int × Int))) (peer : PeerInfo)
    (h : ¬peer.id = source) :
    lookupA (oStep source target topo out peer) peer.id =
      some (((topo.scatterMap peer.id).length : Int),
            ((peerAfter topo source target peer.id).length : Int)) := by
  unfold oStep
  rw [if_neg (by simpa using h)]
  exact lookupA_setSnd_setFst _ _ _ _

theorem migrStep_eq (source target : CsId) (topo : TopoAdapter)
    (st : List (Nat × Nat) × List (Nat × Nat) × List (Nat × (Int × Int)))
    (peer : PeerInfo) :
    migrStep source target topo st peer =
      (tStep source target st.1 peer, sStep source st.2.1 peer,
       oStep source target topo st.2.2 peer) := by
  obtain ⟨tm, sm, out⟩ := st
  by_cases h : (peer.id == source) = true
  · simp [migrStep, tStep, sStep, oStep, h]
  · simp [migrStep, tStep, sStep, oStep, peerAfter, h]

theorem foldl_migrStep (source target : CsId) (topo : TopoAdapter)
    (l : List PeerInfo) (tm sm : List (Nat × Nat))
    (out : List (Nat × (Int × Int))) :
    l.foldl (migrStep source target topo) (tm, sm, out) =
      (l.foldl (tStep source target) tm, l.foldl (sStep source) sm,
       l.foldl (oStep source target topo) out) := by
  induction l generalizing tm sm out with
  | nil => rfl
  | cons x xs ih =>
      rw [List.foldl_cons, List.foldl_cons, List.foldl_cons, List.foldl_cons,
        migrStep_eq]
      exact ih _ _ _

theorem lookup_foldl_oStep_mem (source target : CsId) (topo : TopoAdapter)
    (l : List PeerInfo) (out : List (Nat × (Int × Int))) (k : Nat)
    (hks : k ≠ source) (hmem : ∃ p ∈ l, p.id = k) :
    lookupA (l.foldl (oStep source target topo) out) k =
      some (((topo.scatterMap k).length : Int),
            ((peerAfter topo source target k).length : Int)) := by
  obtain ⟨p, hp, hpk⟩ := hmem
  subst hpk
  apply foldl_establish
    (P := fun o => lookupA o p.id =
      some (((topo.scatterMap p.id).length : Int),
            ((peerAfter topo source target p.id).length : Int)))
    (oStep source target topo) l p hp
  · intro b
    exact oStep_write _ _ _ _ _ hks
  · intro b x hx hb
    by_cases hxk : x.id = p.id
    · have := oStep_write source target topo b x (by rw [hxk]; exact hks)
      rw [hxk] at this
      exact this
    · rw [oStep_other _ _ _ _ _ _ hxk]
      exact hb

theorem lookup_foldl_oStep_none (source target : CsId) (topo : TopoAdapter)
    (l : List PeerInfo) (out : List (Nat × (Int × Int))) (k : Nat)
    (hno : ∀ p ∈ l, p.id ≠ k) :
    lookupA (l.foldl (oStep source target topo) out) k = lookupA out k := by
  apply foldl_invariant (P := fun o => lookupA o k = lookupA out k)
  · intro b x hx hb
    rw [oStep_other _ _ _ _ _ _ (hno x hx), hb]
  · rfl

theorem lookup_foldl_oStep_source (source target : CsId) (topo : TopoAdapter)
    (l : List PeerInfo) (out : List (Nat × (Int × Int))) :
    lookupA (l.foldl (oStep source target topo) out) source =
      lookupA out source := by
  apply foldl_invariant (P := fun o => lookupA o source = lookupA out source)
  · intro b x hx hb
    by_cases hxs : x.id = source
    · unfold oStep
      rw [if_pos (by simpa using hxs)]
      exact hb
    · rw [oStep_other _ _ _ _ _ _ hxs, hb]
  · rfl

/-! ### Lookup characterization of CalculateAffectOfMigration -/

theorem lookup_calculate_peer (topo : TopoAdapter) (c : CopySetInfo)
    (source target k : CsId) (hks : k ≠ source) (hkt : k ≠ target)
    (hmem : ∃ p ∈ c.peers, p.id = k) :
    lookupA (CalculateAffectOfMigration c source target topo) k =
      some (((topo.scatterMap k).length : Int),
            ((peerAfter topo source target k).length : Int)) := by
  simp only [CalculateAffectOfMigration, foldl_migrStep]
  have s1 : ∀ (X : List (Nat × (Int × Int))) (v : Int),
      lookupA (if source != UNINTIALIZE_ID then setSnd X source v else X) k =
        lookupA X k := by
    intro X v
    split
    · exact lookupA_setSnd_other _ _ _ _ hks
    · rfl
  have s2 : ∀ (X : List (Nat × (Int × Int))) (v : Int),
      lookupA (if target != UNINTIALIZE_ID then setSnd X target v else X) k =
        lookupA X k := by
    intro X v
    split
    · exact lookupA_setSnd_other _ _ _ _ hkt
    · rfl
  rw [s1, s2]
  exact lookup_foldl_oStep_mem _ _ _ _ _ _ hks hmem

theorem lookup_calculate_target (topo : TopoAdapter) (c : CopySetInfo)
    (source target : CsId) (hT : target ≠ UNINTIALIZE_ID)
    (hST : source ≠ target) (hTp : ∀ p ∈ c.peers, p.id ≠ target) :
    lookupA (CalculateAffectOfMigration c source target topo) target =
      some (((topo.scatterMap target).length : Int),
            ((targetMapAfterMigration c source target topo).length : Int)) := by
  simp only [CalculateAffectOfMigration, foldl_migrStep]
  have hTb : (target != UNINTIALIZE_ID) = true := by simpa using hT
  have s1 : ∀ (X : List (Nat × (Int × Int))) (v : Int),
      lookupA (if source != UNINTIALIZE_ID then setSnd X source v else X)
          target = lookupA X target := by
    intro X v
    split
    · exact lookupA_setSnd_other _ _ _ _ (Ne.symm hST)
    · rfl
  rw [s1]
  simp only [hTb, if_true]
  rw [lookupA_setSnd_self,
    lookup_foldl_oStep_none _ _ _ _ _ _ hTp]
  have s2 : ∀ (v1 : Int), lookupA
      (if source != UNINTIALIZE_ID then
        setFst (setFst [] target ((topo.scatterMap target).length : Int))
          source v1
       else setFst [] target ((topo.scatterMap target).length : Int))
      target =
      some (((topo.scatterMap target).length : Int), 0) := by
    intro v1
    split
    · rw [lookupA_setFst_other _ _ _ _ (Ne.symm hST), lookupA_setFst_self]
      rfl
    · rw [lookupA_setFst_self]
      rfl
  rw [s2]
  rfl

theorem lookup_calculate_source (topo : TopoAdapter) (c : CopySetInfo)
    (source target : CsId) (hS : source ≠ UNINTIALIZE_ID)
    (hST : source ≠ target) :
    lookupA (CalculateAffectOfMigration c source target topo) source =
      some (((topo.scatterMap source).length : Int),
            ((sourceMapAfterMigration c source topo).length : Int)) := by
  simp only [CalculateAffectOfMigration, foldl_migrStep]
  have hSb : (source != UNINTIALIZE_ID) = true := by simpa using hS
  simp only [hSb, if_true]
  rw [lookupA_setSnd_self]
  have s1 : ∀ (X : List (Nat × (Int × Int))) (v : Int),
      lookupA (if target != UNINTIALIZE_ID then setSnd X target v else X)
          source = lookupA X source := by
    intro X v
    split
    · exact lookupA_setSnd_other _ _ _ _ hST
    · rfl
  rw [s1, lookup_foldl_oStep_source]
  rw [lookupA_setFst_self]
  have s2 : ∀ (v2 : Int), lookupA
      (if target != UNINTIALIZE_ID then setFst [] target v2 else []) source =
        none := by
    intro v2
    split
    · rw [lookupA_setFst_other _ _ _ _ hST]
      rfl
    · rfl
  rw [s2]
  rfl

theorem lookup_calculate_none (topo : TopoAdapter) (c : CopySetInfo)
    (source target k : CsId) (hks : k ≠ source) (hkt : k ≠ target)
    (hno : ∀ p ∈ c.peers, p.id ≠ k) :
    lookupA (CalculateAffectOfMigration c source target topo) k = none := by
  simp only [CalculateAffectOfMigration, foldl_migrStep]
  have s1 : ∀ (X : List (Nat × (Int × Int))) (v : Int),
      lookupA (if source != UNINTIALIZE_ID then setSnd X source v else X) k =
        lookupA X k := by
    intro X v
    split
    · exact lookupA_setSnd_other _ _ _ _ hks
    · rfl
  have s2 : ∀ (X : List (Nat × (Int × Int))) (v : Int),
      lookupA (if target != UNINTIALIZE_ID then setSnd X target v else X) k =
        lookupA X k := by
    intro X v
    split
    · exact lookupA_setSnd_other _ _ _ _ hkt
    · rfl
  have s3 : ∀ (X : List (Nat × (Int × Int))) (v : Int),
      lookupA (if source != UNINTIALIZE_ID then setFst X source v else X) k =
        lookupA X k := by
    intro X v
    split
    · exact lookupA_setFst_other _ _ _ _ hks
    · rfl
  have s4 : ∀ (X : List (Nat × (Int × Int))) (v : Int),
      lookupA (if target != UNINTIALIZE_ID then setFst X target v else X) k =
        lookupA X k := by
    intro X v
    split
    · exact lookupA_setFst_other _ _ _ _ hkt
    · rfl
  rw [s1, s2, lookup_foldl_oStep_none _ _ _ _ _ _ hno, s3, s4]
  rfl

/-! ### Length, key-nodup and positivity lemmas for counter maps -/

theorem keysA_cons {β : Type} (a : Nat × β) (m : List (Nat × β)) :
    keysA (a :: m) = a.1 :: keysA m := rfl

theorem length_updateA {β : Type} (m : List (Nat × β)) (k : Nat)
    (f : β → β) : (updateA m k f).length = m.length := by
  simp [updateA]

theorem keysA_updateA {β : Type} (m : List (Nat × β)) (k : Nat) (f : β → β) :
    keysA (updateA m k f) = keysA m := by
  induction m with
  | nil => rfl
  | cons a m ih =>
      rw [updateA_cons, keysA_cons, keysA_cons]
      by_cases ha : (a.1 == k) = true <;> simp [ha, ih]

theorem not_mem_keysA_of_lookup_none {β : Type} {m : List (Nat × β)}
    {k : Nat} (h : lookupA m k = none) : k ∉ keysA m := by
  rw [lookupA_none_iff] at h
  intro hc
  obtain ⟨q, hq, hq1⟩ := List.mem_map.mp hc
  exact h q hq hq1

theorem length_incr_none (m : List (Nat × Nat)) (k : Nat)
    (h : lookupA m k = none) : (incr m k).length = m.length + 1 := by
  simp [incr, h]

theorem length_incr_some (m : List (Nat × Nat)) (k : Nat) (v : Nat)
    (h : lookupA m k = some v) : (incr m k).length = m.length := by
  simp [incr, h, length_updateA]

theorem keysA_incr_nodup (m : List (Nat × Nat)) (k : Nat)
    (h : (keysA m).Nodup) : (keysA (incr m k)).Nodup := by
  unfold incr
  cases hm : lookupA m k with
  | none =>
      have hk : k ∉ keysA m := not_mem_keysA_of_lookup_none hm
      have : keysA (m ++ [(k, 1)]) = keysA m ++ [k] := by
        simp [keysA]
      rw [this, List.nodup_append]
      refine ⟨h, List.nodup_singleton k, ?_⟩
      intro a ha hb
      simp only [List.mem_singleton] at hb
      exact hk (hb ▸ ha)
  | some v =>
      rw [keysA_updateA]
      exact h

theorem lookupA_incr_self (m : List (Nat × Nat)) (k : Nat) :
    lookupA (incr m k) k = some ((lookupA m k).getD 0 + 1) := by
  unfold incr
  cases hm : lookupA m k with
  | none => simp [lookupA_append_self_none _ hm]
  | some v => simp [lookupA_updateA_self, hm]

theorem lookupA_incr_other (m : List (Nat × Nat)) (k j : Nat) (h : j ≠ k) :
    lookupA (incr m k) j = lookupA m j := by
  unfold incr
  cases hm : lookupA m k with
  | none => exact lookupA_append_other _ _ _ _ h
  | some v => exact lookupA_updateA_other _ _ _ _ h

theorem length_eraseA_nodup {β : Type} (m : List (Nat × β)) (k : Nat)
    (v : β) (hnd : (keysA m).Nodup) (h : lookupA m k = some v) :
    (eraseA m k).length + 1 = m.length := by
  induction m with
  | nil => simp [lookupA] at h
  | cons a m ih =>
      rw [lookupA_cons] at h
      rw [eraseA_cons]
      rw [keysA_cons, List.nodup_cons] at hnd
      by_cases ha : a.1 = k
      · rw [if_neg (by simp [ha])]
        have hm : lookupA m k = none := by
          rw [lookupA_none_iff]
          intro q hq hq1
          exact hnd.1 (ha ▸ hq1 ▸ List.mem_map_of_mem (fun r => r.1) hq)
        rw [eraseA_of_lookup_none _ _ hm]
        simp
      · rw [if_pos ha]
        simp only [List.length_cons]
        have := ih hnd.2 (by simpa [ha] using h)
        omega

theorem decrErase_none (m : List (Nat × Nat)) (k : Nat)
    (h : lookupA m k = none) : decrErase m k = m := by
  simp [decrErase, h]

theorem length_decrErase_le (m : List (Nat × Nat)) (k : Nat) (v : Nat)
    (hnd : (keysA m).Nodup) (h : lookupA m k = some v) (hv : v ≤ 1) :
    (decrErase m k).length + 1 = m.length := by
  simp only [decrErase, h, if_pos hv]
  exact length_eraseA_nodup m k v hnd h

theorem length_decrErase_gt (m : List (Nat × Nat)) (k : Nat) (v : Nat)
    (h : lookupA m k = some v) (hv : ¬v ≤ 1) :
    (decrErase m k).length = m.length := by
  simp only [decrErase, h, if_neg hv]
  exact length_updateA _ _ _

theorem pos_incr (m : List (Nat × Nat)) (k : Nat)
    (hpos : ∀ e ∈ m, 0 < e.2) : ∀ e ∈ incr m k, 0 < e.2 := by
  unfold incr
  cases hm : lookupA m k with
  | none =>
      intro e he
      rcases List.mem_append.mp he with h | h
      · exact hpos e h
      · simp only [List.mem_singleton] at h
        subst h
        norm_num
  | some v =>
      intro e he
      obtain ⟨q, hq, rfl⟩ := List.mem_map.mp he
      by_cases hqk : (q.1 == k) = true
      · simp only [if_pos hqk]
        have := hpos q hq
        omega
      · simp only [if_neg hqk]
        exact hpos q hq

theorem pos_decrErase (m : List (Nat × Nat)) (k : Nat)
    (hnd : (keysA m).Nodup) (hpos : ∀ e ∈ m, 0 < e.2) :
    ∀ e ∈ decrErase m k, 0 < e.2 := by
  cases hm : lookupA m k with
  | none =>
      rw [decrErase_none m k hm]
      exact hpos
  | some v =>
      by_cases hv : v ≤ 1
      · intro e he
        rw [show decrErase m k = eraseA m k from by
          simp [decrErase, hm, hv]] at he
        exact hpos e (List.mem_of_mem_filter he)
      · intro e he
        rw [show decrErase m k = updateA m k (fun v => v - 1) from by
          simp [decrErase, hm, hv]] at he
        obtain ⟨q, hq, rfl⟩ := List.mem_map.mp he
        by_cases hqk : (q.1 == k) = true
        · have hlq : lookupA m q.1 = some q.2 := lookupA_of_mem_nodup hnd hq
          have hq1k : q.1 = k := by simpa using hqk
          rw [hq1k, hm] at hlq
          have hq2 : q.2 = v := by
            injection hlq.symm
          simp only [if_pos hqk]
          omega
        · simp only [if_neg hqk]
          exact hpos q hq

/-! ### Accumulator characterization of the scatter-width check loop -/

theorem invovled_foldl (target ignore : CsId) (minScatterWidth : Int)
    (p : ℚ) (l : List (Nat × (Int × Int))) (b : Bool) (s : Int) :
    l.foldl
      (fun acc e =>
        if e.1 == ignore then acc
        else
          ((if SatisfyScatterWidth (e.1 == target) e.2.1 e.2.2 minScatterWidth
              p then acc.1 else false),
           acc.2 + (e.2.2 - e.2.1))) (b, s) =
      (b && l.all (fun e => e.1 == ignore ||
          SatisfyScatterWidth (e.1 == target) e.2.1 e.2.2 minScatterWidth p),
       s + ((l.filter (fun e => !(e.1 == ignore))).map
          (fun e => e.2.2 - e.2.1)).sum) := by
  induction l generalizing b s with
  | nil => simp
  | cons e es ih =>
      rw [List.foldl_cons]
      by_cases hi : (e.1 == ignore) = true
      · rw [if_pos hi, ih b s]
        simp [hi]
      · rw [if_neg hi, ih]
        by_cases hs : SatisfyScatterWidth (e.1 == target) e.2.1 e.2.2
            minScatterWidth p = true
        · simp only [List.all_cons, List.filter_cons, hi, hs, Bool.or_true,
            Bool.true_and, Bool.not_false, if_true, List.map_cons,
            List.sum_cons]
          rw [Int.add_assoc]
        · simp only [List.all_cons, List.filter_cons, hi, hs, Bool.or_false,
            Bool.false_and, Bool.and_false, Bool.not_false, if_true,
            List.map_cons, List.sum_cons]
          simp [Int.add_assoc]

/-! ### Zone histogram loop lemmas -/

theorem zone_fold (peers : List PeerInfo) (source : CsId) (z0 : ZoneId) :
    peers.foldl
      (fun (st : List (Nat × Nat) × ZoneId) info =>
        (incr st.1 info.zoneId,
         if source == info.id then info.zoneId else st.2)) ([], z0) =
      (zoneHist peers, sourceZoneOf peers source z0) :=
  foldl_pair (fun m (q : PeerInfo) => incr m q.zoneId)
    (fun z (q : PeerInfo) => if source == q.id then q.zoneId else z)
    peers [] z0

theorem sourceZoneOf_indep (source : CsId) (j1 j2 : ZoneId) :
    ∀ (peers : List PeerInfo), (∃ q ∈ peers, q.id = source) →
      sourceZoneOf peers source j1 = sourceZoneOf peers source j2 := by
  intro peers
  induction peers with
  | nil =>
      rintro ⟨q, hq, _⟩
      cases hq
  | cons a l ih =>
      intro h
      by_cases ha : (source == a.id) = true
      · have ha' : source = a.id := by simpa using ha
        simp [sourceZoneOf, List.foldl_cons, ha']
      · obtain ⟨q, hq, hqs⟩ := h
        rcases List.mem_cons.mp hq with hqa | hql
        · exact absurd (by simp [hqa ▸ hqs]) ha
        · unfold sourceZoneOf
          rw [List.foldl_cons, List.foldl_cons, if_neg ha, if_neg ha]
          exact ih ⟨q, hql, hqs⟩

/-! ### Distribution builder lemmas -/

theorem lookupA_rosterStep_other (out : List (Nat × List CopySetInfo))
    (item : ChunkServerInfo) (k : Nat) (h : item.info.id ≠ k) :
    lookupA (rosterStep out item) k = lookupA out k := by
  unfold rosterStep
  by_cases hoff : item.IsOffline = true
  · rw [if_pos hoff]
    exact lookupA_eraseA_other _ _ _ (Ne.symm h)
  · rw [if_neg hoff]
    cases hm : lookupA out item.info.id with
    | none => exact lookupA_append_other _ _ _ _ (Ne.symm h)
    | some l => rfl

theorem lookupA_rosterStep_offline (out : List (Nat × List CopySetInfo))
    (item : ChunkServerInfo) (hoff : item.IsOffline = true) :
    lookupA (rosterStep out item) item.info.id = none := by
  unfold rosterStep
  rw [if_pos hoff]
  exact lookupA_eraseA_self _ _

theorem lookupA_rosterStep_online (out : List (Nat × List CopySetInfo))
    (item : ChunkServerInfo) (hoff : item.IsOffline = false) :
    (lookupA (rosterStep out item) item.info.id).isSome = true := by
  unfold rosterStep
  rw [if_neg (by simp [hoff])]
  cases hm : lookupA out item.info.id with
  | none =>
      rw [lookupA_append_self_none _ hm]
      rfl
  | some l =>
      rw [hm]
      rfl

theorem lookup_foldl_roster_other (l : List ChunkServerInfo)
    (out : List (Nat × List CopySetInfo)) (k : Nat)
    (h : ∀ item ∈ l, item.info.id ≠ k) :
    lookupA (l.foldl rosterStep out) k = lookupA out k := by
  apply foldl_invariant (P := fun o => lookupA o k = lookupA out k)
  · intro b x hx hb
    rw [lookupA_rosterStep_other _ _ _ (h x hx), hb]
  · rfl

theorem regInner_pres (item : CopySetInfo) (n : Nat) (c : CopySetInfo)
    (out : List (Nat × List CopySetInfo)) (peer : PeerInfo)
    (h : ∃ l, lookupA out n = some l ∧ c ∈ l) :
    ∃ l, lookupA
      (match lookupA out peer.id with
       | none => out ++ [(peer.id, [item])]
       | some _ => updateA out peer.id (fun l => l ++ [item])) n =
        some l ∧ c ∈ l := by
  obtain ⟨l0, hl, hc⟩ := h
  cases hm : lookupA out peer.id with
  | none =>
      by_cases hpk : peer.id = n
      · rw [hpk] at hm
        rw [hm] at hl
        cases hl
      · refine ⟨l0, ?_, hc⟩
        rw [lookupA_append_other _ _ _ _ (Ne.symm hpk)]
        exact hl
  | some l1 =>
      by_cases hpk : peer.id = n
      · subst hpk
        refine ⟨l0 ++ [item], ?_, List.mem_append_left _ hc⟩
        rw [lookupA_updateA_self, hl]
        rfl
      · refine ⟨l0, ?_, hc⟩
        rw [lookupA_updateA_other _ _ _ _ (Ne.symm hpk)]
        exact hl

theorem regInner_est (item : CopySetInfo) (peer : PeerInfo)
    (out : List (Nat × List CopySetInfo)) :
    ∃ l, lookupA
      (match lookupA out peer.id with
       | none => out ++ [(peer.id, [item])]
       | some _ => updateA out peer.id (fun l => l ++ [item])) peer.id =
        some l ∧ item ∈ l := by
  cases hm : lookupA out peer.id with
  | none =>
      refine ⟨[item], ?_, List.mem_singleton_self item⟩
      exact lookupA_append_self_none _ hm
  | some l1 =>
      refine ⟨l1 ++ [item], ?_, List.mem_append_right _
        (List.mem_singleton_self item)⟩
      rw [lookupA_updateA_self, hm]
      rfl

theorem registerCopyset_pres (item : CopySetInfo)
    (out : List (Nat × List CopySetInfo)) (n : Nat) (c : CopySetInfo)
    (h : ∃ l, lookupA out n = some l ∧ c ∈ l) :
    ∃ l, lookupA (registerCopyset out item) n = some l ∧ c ∈ l := by
  apply foldl_invariant
    (P := fun o => ∃ l, lookupA o n = some l ∧ c ∈ l)
  · intro b x hx hb
    exact regInner_pres item n c b x hb
  · exact h

theorem registerCopyset_est (item : CopySetInfo)
    (out : List (Nat × List CopySetInfo)) (n : Nat)
    (hp : ∃ p ∈ item.peers, p.id = n) :
    ∃ l, lookupA (registerCopyset out item) n = some l ∧ item ∈ l := by
  obtain ⟨p, hp', hpn⟩ := hp
  subst hpn
  apply foldl_establish
    (P := fun o => ∃ l, lookupA o p.id = some l ∧ item ∈ l) _ _ p hp'
  · intro b
    exact regInner_est item p b
  · intro b x hx hb
    exact regInner_pres item p.id item b x hb

theorem register_foldl_mem (copysetList : List CopySetInfo)
    (out0 : List (Nat × List CopySetInfo)) (n : Nat) (c : CopySetInfo)
    (hc : c ∈ copysetList) (hp : ∃ p ∈ c.peers, p.id = n) :
    ∃ l, lookupA (copysetList.foldl registerCopyset out0) n =
      some l ∧ c ∈ l := by
  apply foldl_establish
    (P := fun o => ∃ l, lookupA o n = some l ∧ c ∈ l)
    registerCopyset copysetList c hc
  · intro b
    exact registerCopyset_est c b n hp
  · intro b x hx hb
    exact registerCopyset_pres x b n c hb

theorem regInner_isSome (item : CopySetInfo) (n : Nat)
    (out : List (Nat × List CopySetInfo)) (peer : PeerInfo)
    (h : (lookupA out n).isSome = true) :
    (lookupA
      (match lookupA out peer.id with
       | none => out ++ [(peer.id, [item])]
       | some _ => updateA out peer.id (fun l => l ++ [item])) n).isSome =
      true := by
  obtain ⟨l0, hl⟩ := Option.isSome_iff_exists.mp h
  cases hm : lookupA out peer.id with
  | none =>
      by_cases hpk : peer.id = n
      · rw [hpk] at hm
        rw [hm] at hl
        cases hl
      · rw [lookupA_append_other _ _ _ _ (Ne.symm hpk), hl]
        rfl
  | some l1 =>
      by_cases hpk : peer.id = n
      · subst hpk
        rw [lookupA_updateA_self, hl]
        rfl
      · rw [lookupA_updateA_other _ _ _ _ (Ne.symm hpk), hl]
        rfl

theorem register_foldl_isSome (copysetList : List CopySetInfo)
    (out0 : List (Nat × List CopySetInfo)) (n : Nat)
    (h : (lookupA out0 n).isSome = true) :
    (lookupA (copysetList.foldl registerCopyset out0) n).isSome = true := by
  apply foldl_invariant (P := fun o => (lookupA o n).isSome = true)
  · intro b x hx hb
    apply foldl_invariant (P := fun o => (lookupA o n).isSome = true)
    · intro b2 x2 hx2 hb2
      exact regInner_isSome x n b2 x2 hb2
    · exact hb
  · exact h

theorem roster_foldl_isSome (l : List ChunkServerInfo)
    (out : List (Nat × List CopySetInfo)) (n : Nat)
    (hsafe : ∀ item ∈ l, item.info.id = n → item.IsOffline = false)
    (h : (lookupA out n).isSome = true) :
    (lookupA (l.foldl rosterStep out) n).isSome = true := by
  apply foldl_invariant (P := fun o => (lookupA o n).isSome = true)
  · intro b x hx hb
    by_cases hin : x.info.id = n
    · obtain ⟨l0, hl⟩ := Option.isSome_iff_exists.mp hb
      unfold rosterStep
      rw [if_neg (by simp [hsafe x hx hin])]
      rw [show lookupA b x.info.id = some l0 from by rw [hin]; exact hl]
      exact hb
    · rw [lookupA_rosterStep_other _ _ _ hin]
      exact hb
  · exact h

/-! ### Claim theorems -/

/-- C1: SatisfyScatterWidth implements the asymmetric acceptance predicate:
with max the truncated product of the minimum and one plus the range
percentage, any new width inside the range is accepted; below the minimum a
non-target is accepted iff it does not shrink and a target iff it gains at
least one; above the maximum a non-target is accepted iff it does not grow
and a target iff it loses at least one. -/
theorem satisfyScatterWidth_spec (isT : Bool) (oldW newW minSW : Int)
    (p : ℚ) (hmin : 0 < minSW) (hp : 0 ≤ p) :
    (minSW ≤ newW → newW ≤ maxValueOf minSW p →
      SatisfyScatterWidth isT oldW newW minSW p = true)
    ∧ (newW < minSW →
      (SatisfyScatterWidth isT oldW newW minSW p = true ↔
        (if isT = true then 1 ≤ newW - oldW else oldW ≤ newW)))
    ∧ (maxValueOf minSW p < newW →
      (SatisfyScatterWidth isT oldW newW minSW p = true ↔
        (if isT = true then newW - oldW ≤ -1 else newW ≤ oldW))) := by
  have hM : minSW ≤ maxValueOf minSW p := by
    have h0 : (0 : ℚ) ≤ (minSW : ℚ) * (1 + p) := by
      have : (0 : ℚ) ≤ (minSW : ℚ) := by exact_mod_cast hmin.le
      nlinarith
    have h2 : (minSW : ℚ) ≤ (minSW : ℚ) * (1 + p) := by
      have : (0 : ℚ) ≤ (minSW : ℚ) := by exact_mod_cast hmin.le
      nlinarith
    have hEq : maxValueOf minSW p = ⌊(minSW : ℚ) * (1 + p)⌋ := by
      unfold maxValueOf truncToInt
      rw [Rat.floor_def]
      exact Int.tdiv_eq_ediv (Rat.num_nonneg.mpr h0)
        (Int.natCast_nonneg _)
    rw [hEq]
    exact Int.le_floor.mpr h2
  refine ⟨?_, ?_, ?_⟩
  · intro h1 h2
    simp only [SatisfyScatterWidth]
    rw [if_neg (by omega), if_neg (by omega)]
  · intro h1
    simp only [SatisfyScatterWidth]
    rw [if_pos h1]
    cases isT <;> simp <;> omega
  · intro h1
    simp only [SatisfyScatterWidth]
    rw [if_neg (by omega), if_pos (by omega)]
    cases isT <;> simp <;> omega

/-- C1 witness: concrete instantiation of the characterization at a target
node with widths 3 and 4, minimum 5, range twenty percent. -/
theorem satisfyScatterWidth_spec_witness :
    (0 : Int) < 5 ∧ (0 : ℚ) ≤ 1/5 ∧
    (((5 : Int) ≤ 4 → (4 : Int) ≤ maxValueOf 5 (1/5) →
      SatisfyScatterWidth true 3 4 5 (1/5) = true)
    ∧ ((4 : Int) < 5 →
      (SatisfyScatterWidth true 3 4 5 (1/5) = true ↔
        (if (true : Bool) = true then 1 ≤ (4 : Int) - 3
         else (3 : Int) ≤ 4)))
    ∧ (maxValueOf 5 (1/5) < 4 →
      (SatisfyScatterWidth true 3 4 5 (1/5) = true ↔
        (if (true : Bool) = true then (4 : Int) - 3 ≤ -1
         else (4 : Int) ≤ 3)))) :=
  ⟨by norm_num, by norm_num,
    satisfyScatterWidth_spec true 3 4 5 (1/5) (by norm_num) (by norm_num)⟩

/-- C5: the feasibility check surfaces both lookup failures as an immediate
false result: an unresolvable target chunkserver, and a non-positive
configured standard zone count. -/
theorem satisfyZoneLimit_lookup_failure (topo : TopoAdapter)
    (target source : CsId) (candidate : CopySetInfo) (minSW : Int) (p : ℚ)
    (junk : ZoneId) :
    (topo.chunkServerInfo target = none →
      SatisfyZoneAndScatterWidthLimit topo target source candidate minSW p
        junk = false)
    ∧ (∀ ti, topo.chunkServerInfo target = some ti →
        topo.standardZoneNum candidate.id.1 ≤ 0 →
        SatisfyZoneAndScatterWidthLimit topo target source candidate minSW p
          junk = false) := by
  constructor
  · intro h
    unfold SatisfyZoneAndScatterWidthLimit
    rw [h]
  · intro ti h hz
    unfold SatisfyZoneAndScatterWidthLimit
    rw [h]
    simp only [if_pos hz]

/-- C5 witness: chunkserver 7 is unresolvable in the witness topology, and
the check returns false for it. -/
theorem satisfyZoneLimit_lookup_failure_witness :
    topoW.chunkServerInfo 7 = none ∧
    SatisfyZoneAndScatterWidthLimit topoW 7 3 copysetW 1 (1/5) 0 = false :=
  ⟨rfl, (satisfyZoneLimit_lookup_failure topoW 7 3 copysetW 1 (1/5) 0).1 rfl⟩

/-- C3: with both lookups succeeding, the zone-and-scatter feasibility check
equals the conjunction of the zone-count test on the histogram simulated by
removing the source zone and adding the target zone, and the scatter-width
feasibility check with no ignored node. -/
theorem satisfyZoneLimit_spec (topo : TopoAdapter) (target source : CsId)
    (candidate : CopySetInfo) (minSW : Int) (p : ℚ) (junk : ZoneId)
    (ti : ChunkServerInfo) (hti : topo.chunkServerInfo target = some ti)
    (hz : 0 < topo.standardZoneNum candidate.id.1) :
    SatisfyZoneAndScatterWidthLimit topo target source candidate minSW p
        junk =
      (decide (topo.standardZoneNum candidate.id.1 ≤
        ((incr (decrErase (zoneHist candidate.peers)
            (sourceZoneOf candidate.peers source junk))
          ti.info.zoneId).length : Int)) &&
       (InvovledReplicasSatisfyScatterWidthAfterMigration candidate source
         target UNINTIALIZE_ID topo minSW p).1) := by
  unfold SatisfyZoneAndScatterWidthLimit
  rw [hti]
  simp only [zone_fold]
  rw [if_neg (by omega)]
  by_cases hlen : ((incr (decrErase (zoneHist candidate.peers)
      (sourceZoneOf candidate.peers source junk))
      ti.info.zoneId).length : Int) < topo.standardZoneNum candidate.id.1
  · rw [if_pos hlen, decide_eq_false (by omega), Bool.false_and]
  · rw [if_neg hlen, decide_eq_true (by omega), Bool.true_and]

/-- C3 witness: concrete instantiation migrating peer 3 of the witness
copyset to chunkserver 10 with the pool requiring three zones. -/
theorem satisfyZoneLimit_spec_witness :
    topoW.chunkServerInfo 10 = some ⟨⟨10, 1⟩, false⟩ ∧
    (0 : Int) < topoW.standardZoneNum copysetW.id.1 ∧
    SatisfyZoneAndScatterWidthLimit topoW 10 3 copysetW 1 (1/5) 0 =
      (decide (topoW.standardZoneNum copysetW.id.1 ≤
        ((incr (decrErase (zoneHist copysetW.peers)
            (sourceZoneOf copysetW.peers 3 0)) (1 : ZoneId)).length : Int)) &&
       (InvovledReplicasSatisfyScatterWidthAfterMigration copysetW 3 10
         UNINTIALIZE_ID topoW 1 (1/5)).1) :=
  ⟨rfl, by norm_num [topoW],
    satisfyZoneLimit_spec topoW 10 3 copysetW 1 (1/5) 0 ⟨⟨10, 1⟩, false⟩
      rfl (by norm_num [topoW])⟩

/-- C4: the involved-replica check evaluates the scatter-width policy, with
the target flag set exactly on the target node, for every impact entry
except the ignored node; it accumulates the net scatter-width change over
all evaluated entries regardless of individual outcomes, and returns false
exactly when some evaluated entry fails. -/
theorem invovledReplicas_spec (c : CopySetInfo) (source target ignore : CsId)
    (topo : TopoAdapter) (minSW : Int) (p : ℚ) :
    (InvovledReplicasSatisfyScatterWidthAfterMigration c source target
        ignore topo minSW p).2 =
      (((CalculateAffectOfMigration c source target topo).filter
          (fun e => !(e.1 == ignore))).map (fun e => e.2.2 - e.2.1)).sum
    ∧ ((InvovledReplicasSatisfyScatterWidthAfterMigration c source target
        ignore topo minSW p).1 = true ↔
      ∀ e ∈ CalculateAffectOfMigration c source target topo,
        e.1 ≠ ignore →
        SatisfyScatterWidth (e.1 == target) e.2.1 e.2.2 minSW p = true) := by
  constructor
  · simp only [InvovledReplicasSatisfyScatterWidthAfterMigration,
      invovled_foldl]
    simp
  · simp only [InvovledReplicasSatisfyScatterWidthAfterMigration,
      invovled_foldl, Bool.true_and]
    rw [List.all_eq_true]
    constructor
    · intro h e he hne
      have := h e he
      simp only [Bool.or_eq_true, beq_iff_eq] at this
      tauto
    · intro h e he
      simp only [Bool.or_eq_true, beq_iff_eq]
      by_cases hne : e.1 = ignore
      · left
        exact hne
      · right
        exact h e he hne

/-- C2: the migration impact covers the target, the source, and every
non-source peer; the target entry records its width before and after
gaining every peer except the source; the source entry records its width
before and after losing one co-hosting unit with every peer except itself;
every other peer entry records its width before and after gaining the
target and losing the source. -/
theorem calculateAffect_spec (topo : TopoAdapter) (c : CopySetInfo)
    (source target : CsId) (hT : target ≠ UNINTIALIZE_ID)
    (hS : source ≠ UNINTIALIZE_ID) (hST : source ≠ target)
    (hTp : ∀ p ∈ c.peers, p.id ≠ target) :
    (∀ k, (lookupA (CalculateAffectOfMigration c source target topo)
        k).isSome = true ↔
      (k = target ∨ k = source ∨ ∃ p ∈ c.peers, p.id = k ∧ p.id ≠ source))
    ∧ lookupA (CalculateAffectOfMigration c source target topo) target =
        some (((topo.scatterMap target).length : Int),
          ((targetMapAfterMigration c source target topo).length : Int))
    ∧ lookupA (CalculateAffectOfMigration c source target topo) source =
        some (((topo.scatterMap source).length : Int),
          ((sourceMapAfterMigration c source topo).length : Int))
    ∧ ∀ p ∈ c.peers, p.id ≠ source →
        lookupA (CalculateAffectOfMigration c source target topo) p.id =
          some (((topo.scatterMap p.id).length : Int),
            ((peerAfter topo source target p.id).length : Int)) := by
  have hTgt := lookup_calculate_target topo c source target hT hST hTp
  have hSrc := lookup_calculate_source topo c source target hS hST
  refine ⟨?_, hTgt, hSrc, ?_⟩
  · intro k
    constructor
    · intro hk
      by_cases h1 : k = target
      · exact Or.inl h1
      by_cases h2 : k = source
      · exact Or.inr (Or.inl h2)
      by_cases h3 : ∃ p ∈ c.peers, p.id = k
      · obtain ⟨p, hp, hpk⟩ := h3
        exact Or.inr (Or.inr ⟨p, hp, hpk, fun hc => h2 (hpk ▸ hc ▸ rfl)⟩)
      · exfalso
        push_neg at h3
        rw [lookup_calculate_none topo c source target k
          (fun hc => h2 hc) (fun hc => h1 hc) h3] at hk
        cases hk
    · rintro (rfl | rfl | ⟨p, hp, hpk, hps⟩)
      · rw [hTgt]
        rfl
      · rw [hSrc]
        rfl
      · subst hpk
        rw [lookup_calculate_peer topo c source target p.id hps
          (hTp p hp) ⟨p, hp, rfl⟩]
        rfl
  · intro p hp hps
    exact lookup_calculate_peer topo c source target p.id hps
      (hTp p hp) ⟨p, hp, rfl⟩

/-- C2 witness: copyset with peers 1, 2, 3 migrating peer 3 to chunkserver
4 in the witness topology; nodes 1 and 2 each lose partner 3 and gain
partner 4, the source's simulated map excludes 1 and 2, and the target's
simulated map includes 1 and 2. -/
theorem calculateAffect_spec_witness :
    ((4 : CsId) ≠ UNINTIALIZE_ID) ∧ ((3 : CsId) ≠ UNINTIALIZE_ID) ∧
    ((3 : CsId) ≠ 4) ∧ (∀ p ∈ copysetW.peers, p.id ≠ 4) ∧
    ((∀ k, (lookupA (CalculateAffectOfMigration copysetW 3 4 topoW)
        k).isSome = true ↔
      (k = 4 ∨ k = 3 ∨ ∃ p ∈ copysetW.peers, p.id = k ∧ p.id ≠ 3))
     ∧ lookupA (CalculateAffectOfMigration copysetW 3 4 topoW) 4 =
        some (((topoW.scatterMap 4).length : Int),
          ((targetMapAfterMigration copysetW 3 4 topoW).length : Int))
     ∧ lookupA (CalculateAffectOfMigration copysetW 3 4 topoW) 3 =
        some (((topoW.scatterMap 3).length : Int),
          ((sourceMapAfterMigration copysetW 3 topoW).length : Int))
     ∧ ∀ p ∈ copysetW.peers, p.id ≠ 3 →
        lookupA (CalculateAffectOfMigration copysetW 3 4 topoW) p.id =
          some (((topoW.scatterMap p.id).length : Int),
            ((peerAfter topoW 3 4 p.id).length : Int)))
    ∧ (lookupA (peerAfter topoW 3 4 1) 3 = none ∧
       lookupA (peerAfter topoW 3 4 1) 4 = some 1 ∧
       lookupA (peerAfter topoW 3 4 2) 3 = none ∧
       lookupA (peerAfter topoW 3 4 2) 4 = some 1 ∧
       lookupA (sourceMapAfterMigration copysetW 3 topoW) 1 = none ∧
       lookupA (sourceMapAfterMigration copysetW 3 topoW) 2 = none ∧
       lookupA (targetMapAfterMigration copysetW 3 4 topoW) 1 = some 1 ∧
       lookupA (targetMapAfterMigration copysetW 3 4 topoW) 2 = some 1) :=
  ⟨by decide, by decide, by decide, by decide,
    calculateAffect_spec topoW copysetW 3 4 (by decide) (by decide)
      (by decide) (by decide),
    by decide⟩

/-- C9: for every peer of the copyset other than the source and the target,
the impact entry's width changes by at most one in either direction; it
rises by one only when the target is present and was not already a partner
of the peer, falls by one only when the source is present and the peer
co-hosted exactly one copyset with it, and the simulated scatter map keeps
strictly positive partner counts. -/
theorem peerDelta_spec (topo : TopoAdapter) (c : CopySetInfo)
    (source target : CsId) (P : PeerInfo) (hP : P ∈ c.peers)
    (hs : P.id ≠ source) (ht : P.id ≠ target)
    (hnd : (keysA (topo.scatterMap P.id)).Nodup)
    (hpos : ∀ e ∈ topo.scatterMap P.id, 0 < e.2) :
    ∃ pr : Int × Int,
      lookupA (CalculateAffectOfMigration c source target topo) P.id =
        some pr
      ∧ (pr.2 - pr.1 = -1 ∨ pr.2 - pr.1 = 0 ∨ pr.2 - pr.1 = 1)
      ∧ (pr.2 - pr.1 = 1 → target ≠ UNINTIALIZE_ID ∧
          lookupA (topo.scatterMap P.id) target = none)
      ∧ (pr.2 - pr.1 = -1 → source ≠ UNINTIALIZE_ID ∧
          lookupA (topo.scatterMap P.id) source = some 1)
      ∧ (∀ e ∈ peerAfter topo source target P.id, 0 < e.2) := by
  set m0 := topo.scatterMap P.id with hm0def
  have hpa : peerAfter topo source target P.id =
      (if source != UNINTIALIZE_ID then
        decrErase (if target != UNINTIALIZE_ID then incr m0 target else m0)
          source
       else (if target != UNINTIALIZE_ID then incr m0 target else m0)) := rfl
  set m1 := if target != UNINTIALIZE_ID then incr m0 target else m0
    with hm1def
  set m2 := if source != UNINTIALIZE_ID then decrErase m1 source else m1
    with hm2def
  have hnd1 : (keysA m1).Nodup := by
    rw [hm1def]
    split
    · exact keysA_incr_nodup _ _ hnd
    · exact hnd
  have hpos1 : ∀ e ∈ m1, 0 < e.2 := by
    rw [hm1def]
    split
    · exact pos_incr _ _ hpos
    · exact hpos
  have hpos2 : ∀ e ∈ m2, 0 < e.2 := by
    rw [hm2def]
    split
    · exact pos_decrErase _ _ hnd1 hpos1
    · exact hpos1
  have hm1len : (m1.length = m0.length ∧ (target != UNINTIALIZE_ID) = false)
      ∨ ((target != UNINTIALIZE_ID) = true ∧ lookupA m0 target = none ∧
        m1.length = m0.length + 1)
      ∨ ((target != UNINTIALIZE_ID) = true ∧
        (∃ w, lookupA m0 target = some w) ∧ m1.length = m0.length) := by
    by_cases htb : (target != UNINTIALIZE_ID) = true
    · cases hmt : lookupA m0 target with
      | none =>
          refine Or.inr (Or.inl ⟨htb, rfl, ?_⟩)
          rw [hm1def, if_pos htb]
          exact length_incr_none _ _ hmt
      | some w =>
          refine Or.inr (Or.inr ⟨htb, ⟨w, rfl⟩, ?_⟩)
          rw [hm1def, if_pos htb]
          exact length_incr_some _ _ _ hmt
    · refine Or.inl ⟨?_, by simpa using htb⟩
      rw [hm1def, if_neg htb]
  have hm1src : lookupA m1 source = lookupA m0 source ∨
      (source = target ∧ (target != UNINTIALIZE_ID) = true ∧
        ∃ u, lookupA m1 source = some u ∧
          u = (lookupA m0 target).getD 0 + 1) := by
    by_cases htb : (target != UNINTIALIZE_ID) = true
    · by_cases hst : source = target
      · refine Or.inr ⟨hst, htb, ?_⟩
        rw [hm1def, if_pos htb, hst, lookupA_incr_self]
        exact ⟨_, rfl, rfl⟩
      · refine Or.inl ?_
        rw [hm1def, if_pos htb]
        exact lookupA_incr_other _ _ _ hst
    · refine Or.inl ?_
      rw [hm1def, if_neg htb]
  have hm2len : (m2.length = m1.length ∧
        ((source != UNINTIALIZE_ID) = false ∨ lookupA m1 source = none ∨
          ∃ v, lookupA m1 source = some v ∧ ¬v ≤ 1))
      ∨ ((source != UNINTIALIZE_ID) = true ∧
        (∃ v, lookupA m1 source = some v ∧ v ≤ 1) ∧
        m2.length + 1 = m1.length) := by
    by_cases hsb : (source != UNINTIALIZE_ID) = true
    · cases hms : lookupA m1 source with
      | none =>
          refine Or.inl ⟨?_, Or.inr (Or.inl rfl)⟩
          rw [hm2def, if_pos hsb, decrErase_none _ _ hms]
      | some v =>
          by_cases hv : v ≤ 1
          · refine Or.inr ⟨hsb, ⟨v, rfl, hv⟩, ?_⟩
            rw [hm2def, if_pos hsb]
            exact length_decrErase_le _ _ _ hnd1 hms hv
          · refine Or.inl ⟨?_, Or.inr (Or.inr ⟨v, rfl, hv⟩)⟩
            rw [hm2def, if_pos hsb]
            exact length_decrErase_gt _ _ _ hms hv
    · refine Or.inl ⟨?_, Or.inl (by simpa using hsb)⟩
      rw [hm2def, if_neg hsb]
  rw [hpa]
  refine ⟨((m0.length : Int), (m2.length : Int)),
    lookup_calculate_peer topo c source target P.id hs ht ⟨P, hP, rfl⟩,
    ?_, ?_, ?_, hpos2⟩
  · rcases hm1len with ⟨h1, _⟩ | ⟨_, _, h1⟩ | ⟨_, _, h1⟩ <;>
      rcases hm2len with ⟨h2, _⟩ | ⟨_, _, h2⟩ <;> omega
  · intro hd
    rcases hm2len with ⟨h2, _⟩ | ⟨hsb, ⟨v, hms, hv⟩, h2⟩
    · rcases hm1len with ⟨h1, _⟩ | ⟨htb, hmt, h1⟩ | ⟨_, ⟨w, hmt⟩, h1⟩
      · exact absurd hd (by omega)
      · exact ⟨by simpa using htb, hmt⟩
      · exact absurd hd (by omega)
    · rcases hm1len with ⟨h1, _⟩ | ⟨htb, hmt, h1⟩ | ⟨_, ⟨w, hmt⟩, h1⟩ <;>
        exact absurd hd (by omega)
  · intro hd
    rcases hm2len with ⟨h2, _⟩ | ⟨hsb, ⟨v, hms, hv⟩, h2⟩
    · rcases hm1len with ⟨h1, _⟩ | ⟨_, _, h1⟩ | ⟨_, _, h1⟩ <;>
        exact absurd hd (by omega)
    · refine ⟨by simpa using hsb, ?_⟩
      rcases hm1src with hsrc_eq | ⟨hst, htb, u, hmu, huval⟩
      · rw [hsrc_eq] at hms
        have hv1 : 0 < v := hpos (source, v) (mem_of_lookupA hms)
        have hveq : v = 1 := by omega
        rw [hveq] at hms
        exact hms
      · rcases hm1len with ⟨h1, htbf⟩ | ⟨_, hmt, h1⟩ | ⟨_, ⟨w, hmt⟩, h1⟩
        · rw [htb] at htbf
          cases htbf
        · exact absurd hd (by omega)
        · have hw : 0 < w := hpos (target, w) (mem_of_lookupA hmt)
          have huw : u = w + 1 := by
            rw [huval, hmt]
            rfl
          have hvu : v = u := by
            rw [hms] at hmu
            exact Option.some.inj hmu
          exact absurd hv (by omega)

/-- C9 witness: peer 1 of the witness copyset under the migration of peer 3
to chunkserver 4. -/
theorem peerDelta_spec_witness :
    (⟨1, 1⟩ : PeerInfo) ∈ copysetW.peers ∧ (1 : CsId) ≠ 3 ∧
    (1 : CsId) ≠ 4 ∧ (keysA (topoW.scatterMap 1)).Nodup ∧
    (∀ e ∈ topoW.scatterMap 1, 0 < e.2) ∧
    (∃ pr : Int × Int,
      lookupA (CalculateAffectOfMigration copysetW 3 4 topoW) 1 = some pr
      ∧ (pr.2 - pr.1 = -1 ∨ pr.2 - pr.1 = 0 ∨ pr.2 - pr.1 = 1)
      ∧ (pr.2 - pr.1 = 1 → (4 : CsId) ≠ UNINTIALIZE_ID ∧
          lookupA (topoW.scatterMap 1) 4 = none)
      ∧ (pr.2 - pr.1 = -1 → (3 : CsId) ≠ UNINTIALIZE_ID ∧
          lookupA (topoW.scatterMap 1) 3 = some 1)
      ∧ (∀ e ∈ peerAfter topoW 3 4 1, 0 < e.2)) :=
  ⟨by decide, by decide, by decide, by decide, by decide,
    peerDelta_spec topoW copysetW 3 4 ⟨1, 1⟩ (by decide) (by decide)
      (by decide) (by decide) (by decide)⟩

theorem roster_split_lookup (copysetList : List CopySetInfo)
    (l1 l2 : List ChunkServerInfo) (cs : ChunkServerInfo)
    (out0 : List (Nat × List CopySetInfo))
    (hnotin : ∀ item ∈ l2, item.info.id ≠ cs.info.id) :
    lookupA (CopySetDistributionInOnlineChunkServer copysetList
      (l1 ++ cs :: l2) out0) cs.info.id =
    lookupA (rosterStep (List.foldl rosterStep
      (copysetList.foldl registerCopyset out0) l1) cs) cs.info.id := by
  rw [show CopySetDistributionInOnlineChunkServer copysetList
      (l1 ++ cs :: l2) out0 =
      (l1 ++ cs :: l2).foldl rosterStep
        (copysetList.foldl registerCopyset out0) from rfl,
    List.foldl_append, List.foldl_cons]
  exact lookup_foldl_roster_other l2 _ _ hnotin

/-- C6: after building the distribution over a roster with distinct node
ids, no offline roster chunkserver appears as a key, even if it hosts
copysets, and every online roster chunkserver appears as a key, at minimum
with an empty list. -/
theorem copySetDistribution_online (copysetList : List CopySetInfo)
    (chunkserverList : List ChunkServerInfo)
    (out0 : List (Nat × List CopySetInfo))
    (hnd : (chunkserverList.map (fun cs => cs.info.id)).Nodup) :
    (∀ cs ∈ chunkserverList, cs.IsOffline = true →
      lookupA (CopySetDistributionInOnlineChunkServer copysetList
        chunkserverList out0) cs.info.id = none)
    ∧ (∀ cs ∈ chunkserverList, cs.IsOffline = false →
      (lookupA (CopySetDistributionInOnlineChunkServer copysetList
        chunkserverList out0) cs.info.id).isSome = true) := by
  constructor
  · intro cs hcs hoff
    obtain ⟨l1, l2, hsplit⟩ := List.append_of_mem hcs
    subst hsplit
    rw [List.map_append, List.map_cons] at hnd
    have h2 := List.Nodup.of_append_right hnd
    have hnotin : ∀ item ∈ l2, item.info.id ≠ cs.info.id := by
      intro item hit he
      exact (List.nodup_cons.mp h2).1
        (he ▸ List.mem_map_of_mem (fun x => x.info.id) hit)
    rw [roster_split_lookup copysetList l1 l2 cs out0 hnotin]
    exact lookupA_rosterStep_offline _ _ hoff
  · intro cs hcs hoff
    obtain ⟨l1, l2, hsplit⟩ := List.append_of_mem hcs
    subst hsplit
    rw [List.map_append, List.map_cons] at hnd
    have h2 := List.Nodup.of_append_right hnd
    have hnotin : ∀ item ∈ l2, item.info.id ≠ cs.info.id := by
      intro item hit he
      exact (List.nodup_cons.mp h2).1
        (he ▸ List.mem_map_of_mem (fun x => x.info.id) hit)
    rw [roster_split_lookup copysetList l1 l2 cs out0 hnotin]
    exact lookupA_rosterStep_online _ _ hoff

/-- C6 witness: chunkserver 1 online, chunkserver 2 offline, one copyset
hosted by 1, 2, 3; offline node 2 is absent from the result, online node 1
is present. -/
theorem copySetDistribution_online_witness :
    ((([⟨⟨1, 1⟩, false⟩, ⟨⟨2, 1⟩, true⟩] : List ChunkServerInfo)).map
      (fun cs => cs.info.id)).Nodup ∧
    ((∀ cs ∈ ([⟨⟨1, 1⟩, false⟩, ⟨⟨2, 1⟩, true⟩] : List ChunkServerInfo),
        cs.IsOffline = true →
        lookupA (CopySetDistributionInOnlineChunkServer [copysetW]
          [⟨⟨1, 1⟩, false⟩, ⟨⟨2, 1⟩, true⟩] []) cs.info.id = none)
     ∧ (∀ cs ∈ ([⟨⟨1, 1⟩, false⟩, ⟨⟨2, 1⟩, true⟩] : List ChunkServerInfo),
        cs.IsOffline = false →
        (lookupA (CopySetDistributionInOnlineChunkServer [copysetW]
          [⟨⟨1, 1⟩, false⟩, ⟨⟨2, 1⟩, true⟩] []) cs.info.id).isSome =
          true)) :=
  ⟨by decide,
    copySetDistribution_online [copysetW]
      [⟨⟨1, 1⟩, false⟩, ⟨⟨2, 1⟩, true⟩] [] (by decide)⟩

/-- C10: the offline erasure is scoped to the supplied roster: a node id
hosting copysets but absent from the roster remains a key with all its
hosted copysets regardless of its actual online state, and a key present in
the initial out map survives whenever no offline roster member has that
id. -/
theorem copySetDistribution_scope (copysetList : List CopySetInfo)
    (chunkserverList : List ChunkServerInfo)
    (out0 : List (Nat × List CopySetInfo)) (n : Nat) :
    ((∃ c ∈ copysetList, ∃ p ∈ c.peers, p.id = n) →
      (∀ cs ∈ chunkserverList, cs.info.id ≠ n) →
      ∃ l, lookupA (CopySetDistributionInOnlineChunkServer copysetList
          chunkserverList out0) n = some l ∧
        ∀ c ∈ copysetList, (∃ p ∈ c.peers, p.id = n) → c ∈ l)
    ∧ ((lookupA out0 n).isSome = true →
      (∀ cs ∈ chunkserverList, cs.info.id = n → cs.IsOffline = false) →
      (lookupA (CopySetDistributionInOnlineChunkServer copysetList
        chunkserverList out0) n).isSome = true) := by
  constructor
  · rintro ⟨c0, hc0, hp0⟩ hno
    have hphase2 : lookupA (CopySetDistributionInOnlineChunkServer
        copysetList chunkserverList out0) n =
        lookupA (copysetList.foldl registerCopyset out0) n :=
      lookup_foldl_roster_other chunkserverList _ n hno
    obtain ⟨L, hL, _⟩ := register_foldl_mem copysetList out0 n c0 hc0 hp0
    refine ⟨L, by rw [hphase2]; exact hL, ?_⟩
    intro c hc hp
    obtain ⟨L2, hL2, hmem⟩ := register_foldl_mem copysetList out0 n c hc hp
    rw [hL] at hL2
    have heq : L = L2 := Option.some.inj hL2
    rw [heq]
    exact hmem
  · intro hsome hsafe
    exact roster_foldl_isSome chunkserverList _ n hsafe
      (register_foldl_isSome copysetList out0 n hsome)

/-- C10 witness: node 1 hosts the witness copyset but is absent from the
roster, so it stays a key holding that copyset; a preexisting entry for
node 7 survives a roster with no offline member of that id. -/
theorem copySetDistribution_scope_witness :
    (∃ l, lookupA (CopySetDistributionInOnlineChunkServer [copysetW]
        [⟨⟨5, 1⟩, false⟩] []) 1 = some l ∧
      ∀ c ∈ [copysetW], (∃ p ∈ c.peers, p.id = 1) → c ∈ l)
    ∧ (lookupA (CopySetDistributionInOnlineChunkServer [copysetW]
        [⟨⟨5, 1⟩, false⟩] [((7 : Nat), ([] : List CopySetInfo))])
        7).isSome = true :=
  ⟨(copySetDistribution_scope [copysetW] [⟨⟨5, 1⟩, false⟩] [] 1).1
      ⟨copysetW, by decide, ⟨⟨1, 1⟩, by decide, rfl⟩⟩ (by decide),
   (copySetDistribution_scope [copysetW] [⟨⟨5, 1⟩, false⟩]
      [((7 : Nat), ([] : List CopySetInfo))] 7).2 (by decide) (by decide)⟩

theorem satisfyScatterWidth_eval (minSW M : Int) (p : ℚ)
    (hM : maxValueOf minSW p = M) (t : Bool) (o n : Int) :
    SatisfyScatterWidth t o n minSW p =
      (if n < minSW then
        (if !t then (if n - o < 0 then false else true)
         else (if n - o < 1 then false else true))
       else if n > M then
        (if !t then (if n - o > 0 then false else true)
         else (if n - o ≥ 0 then false else true))
       else true) := by
  simp only [SatisfyScatterWidth, hM]

theorem maxValueOf_one_hundred : maxValueOf 1 100 = 101 := by
  norm_num [maxValueOf, truncToInt]

/-- C8: the zone subtraction is well defined only under the precondition
that the source is one of the candidate copyset's peers: whenever some peer
carries the source id the result does not depend on the uninitialized
contents of the source-zone variable, while a concrete call whose source
matches no peer returns different results for two different uninitialized
contents. -/
theorem satisfyZoneLimit_uninit_source :
    (∀ (topo : TopoAdapter) (target source : CsId)
       (candidate : CopySetInfo) (minSW : Int) (p : ℚ) (j1 j2 : ZoneId),
       (∃ q ∈ candidate.peers, q.id = source) →
       SatisfyZoneAndScatterWidthLimit topo target source candidate minSW p
         j1 =
       SatisfyZoneAndScatterWidthLimit topo target source candidate minSW p
         j2)
    ∧ (∀ q ∈ copysetW.peers, q.id ≠ 99)
    ∧ SatisfyZoneAndScatterWidthLimit topoW 10 99 copysetW 1 100 5 = true
    ∧ SatisfyZoneAndScatterWidthLimit topoW 10 99 copysetW 1 100 3 =
        false := by
  refine ⟨?_, by decide, ?_, ?_⟩
  · intro topo target source candidate minSW p j1 j2 hsrc
    cases h : topo.chunkServerInfo target with
    | none => simp only [SatisfyZoneAndScatterWidthLimit, h]
    | some ti =>
        simp only [SatisfyZoneAndScatterWidthLimit, h]
        by_cases hz : topo.standardZoneNum candidate.id.1 ≤ 0
        · simp only [if_pos hz]
        · simp only [if_neg hz, zone_fold]
          rw [sourceZoneOf_indep source j1 j2 candidate.peers hsrc]
  · simp only [SatisfyZoneAndScatterWidthLimit,
      InvovledReplicasSatisfyScatterWidthAfterMigration,
      satisfyScatterWidth_eval 1 101 100 maxValueOf_one_hundred]
    decide
  · simp only [SatisfyZoneAndScatterWidthLimit,
      InvovledReplicasSatisfyScatterWidthAfterMigration,
      satisfyScatterWidth_eval 1 101 100 maxValueOf_one_hundred]
    decide

/-- C8 witness: source 3 is a peer of the witness copyset, so the result is
the same for two different uninitialized zone values. -/
theorem satisfyZoneLimit_uninit_source_witness :
    (∃ q ∈ copysetW.peers, q.id = 3) ∧
    SatisfyZoneAndScatterWidthLimit topoW 10 3 copysetW 1 (1/5) 5 =
      SatisfyZoneAndScatterWidthLimit topoW 10 3 copysetW 1 (1/5) 3 :=
  ⟨⟨⟨3, 3⟩, by decide, rfl⟩,
    satisfyZoneLimit_uninit_source.1 topoW 10 3 copysetW 1 (1/5) 5 3
      ⟨⟨3, 3⟩, by decide, rfl⟩⟩

/-- C7: for every permutation outcome of the injected shuffles, each
ranking utility returns a permutation of its input collection whose
designated sort key is monotone across every adjacent output pair:
copyset-list length non-increasing for SortDistribute, copyset-membership
count non-decreasing for SortChunkServerByCopySetNumAsc, and affected
delta non-decreasing for SortScatterWitAffected. -/
theorem ranking_spec
    (sh1 : List CopySetInfo → List CopySetInfo)
    (sh2 : List (CsId × List CopySetInfo) → List (CsId × List CopySetInfo))
    (sh3 : List (ChunkServerInfo × Nat) → List (ChunkServerInfo × Nat))
    (sh4 : List (CsId × Int) → List (CsId × Int))
    (h1 : ∀ l, (sh1 l).Perm l) (h2 : ∀ l, (sh2 l).Perm l)
    (h3 : ∀ l, (sh3 l).Perm l) (h4 : ∀ l, (sh4 l).Perm l)
    (distribute : List (CsId × List CopySetInfo))
    (chunkserverList : List ChunkServerInfo) (topo : TopoAdapter)
    (candidates : List (CsId × Int)) :
    (((SortDistribute sh1 sh2 distribute).map Prod.fst).Perm
        (distribute.map Prod.fst)
     ∧ (∀ it ∈ SortDistribute sh1 sh2 distribute,
         ∃ it2 ∈ distribute, it.1 = it2.1 ∧ it.2.Perm it2.2)
     ∧ (SortDistribute sh1 sh2 distribute).Chain'
         (fun a b => b.2.length ≤ a.2.length))
    ∧ ((SortChunkServerByCopySetNumAsc sh3 chunkserverList topo).Perm
        chunkserverList
      ∧ (SortChunkServerByCopySetNumAsc sh3 chunkserverList topo).Chain'
         (fun a b => findD (copysetNumInCsOf topo) a.info.id 0 ≤
            findD (copysetNumInCsOf topo) b.info.id 0))
    ∧ ((SortScatterWitAffected sh4 candidates).Perm candidates
      ∧ (SortScatterWitAffected sh4 candidates).Chain'
         (fun a b => a.2 ≤ b.2)) := by
  refine ⟨⟨?_, ?_, ?_⟩, ⟨?_, ?_⟩, ⟨?_, ?_⟩⟩
  · simp only [SortDistribute]
    have hp1 : (List.mergeSort
        (sh2 (distribute.map (fun it => (it.1, sh1 it.2))))
        (fun c1 c2 => decide (c2.2.length ≤ c1.2.length))).Perm
        (distribute.map (fun it => (it.1, sh1 it.2))) :=
      (List.mergeSort_perm _ _).trans (h2 _)
    have hkeys := hp1.map Prod.fst
    have heq : ((distribute.map (fun it => (it.1, sh1 it.2))).map
        Prod.fst) = distribute.map Prod.fst := by
      rw [List.map_map]
      rfl
    rw [heq] at hkeys
    exact hkeys
  · intro it hit
    simp only [SortDistribute] at hit
    have hit1 := List.mem_mergeSort.mp hit
    have hit2 := ((h2 _).mem_iff).mp hit1
    obtain ⟨it2, hmem, heq2⟩ := List.mem_map.mp hit2
    refine ⟨it2, hmem, ?_, ?_⟩
    · rw [← heq2]
    · rw [← heq2]
      exact h1 it2.2
  · have hpw := @List.sorted_mergeSort _
      (fun c1 c2 : CsId × List CopySetInfo =>
        decide (c2.2.length ≤ c1.2.length))
      (fun a b c hab hbc => by
        simp only [decide_eq_true_eq] at hab hbc ⊢
        omega)
      (fun a b => by
        simp only [Bool.or_eq_true, decide_eq_true_eq]
        omega)
      (sh2 (distribute.map (fun it => (it.1, sh1 it.2))))
    simp only [SortDistribute]
    exact (hpw.imp (fun hab => by simpa using hab)).chain'
  · simp only [SortChunkServerByCopySetNumAsc]
    have hp3 : (List.mergeSort (sh3 (chunkserverList.map (fun cs =>
        (cs, findD (copysetNumInCsOf topo) cs.info.id 0))))
        (fun c1 c2 => decide (c1.2 ≤ c2.2))).Perm
        (chunkserverList.map (fun cs =>
          (cs, findD (copysetNumInCsOf topo) cs.info.id 0))) :=
      (List.mergeSort_perm _ _).trans (h3 _)
    have hmap := hp3.map (fun it => it.1)
    have heq : ((chunkserverList.map (fun cs =>
        (cs, findD (copysetNumInCsOf topo) cs.info.id 0))).map
        (fun it => it.1)) = chunkserverList := by
      rw [List.map_map]
      exact List.map_id _
    rw [heq] at hmap
    exact hmap
  · have hpw := @List.sorted_mergeSort _
      (fun c1 c2 : ChunkServerInfo × Nat => decide (c1.2 ≤ c2.2))
      (fun a b c hab hbc => by
        simp only [decide_eq_true_eq] at hab hbc ⊢
        omega)
      (fun a b => by
        simp only [Bool.or_eq_true, decide_eq_true_eq]
        omega)
      (sh3 (chunkserverList.map (fun cs =>
        (cs, findD (copysetNumInCsOf topo) cs.info.id 0))))
    have hkey : ∀ pr ∈ List.mergeSort (sh3 (chunkserverList.map (fun cs =>
        (cs, findD (copysetNumInCsOf topo) cs.info.id 0))))
        (fun c1 c2 => decide (c1.2 ≤ c2.2)),
        pr.2 = findD (copysetNumInCsOf topo) pr.1.info.id 0 := by
      intro pr hpr
      have hmem : pr ∈ chunkserverList.map (fun cs =>
          (cs, findD (copysetNumInCsOf topo) cs.info.id 0)) :=
        ((h3 _).mem_iff).mp (List.mem_mergeSort.mp hpr)
      obtain ⟨cs, _, heqc⟩ := List.mem_map.mp hmem
      rw [← heqc]
    have hpw2 := hpw.imp_of_mem
      (S := fun a b : ChunkServerInfo × Nat =>
        findD (copysetNumInCsOf topo) a.1.info.id 0 ≤
        findD (copysetNumInCsOf topo) b.1.info.id 0)
      (fun {a b} ha hb hab => by
        show findD (copysetNumInCsOf topo) a.1.info.id 0 ≤
          findD (copysetNumInCsOf topo) b.1.info.id 0
        rw [← hkey _ ha, ← hkey _ hb]
        simpa using hab)
    simp only [SortChunkServerByCopySetNumAsc]
    rw [List.chain'_map]
    exact hpw2.chain'
  · simp only [SortScatterWitAffected]
    exact (List.mergeSort_perm _ _).trans (h4 _)
  · have hpw := @List.sorted_mergeSort _
      (fun c1 c2 : CsId × Int => decide (c1.2 ≤ c2.2))
      (fun a b c hab hbc => by
        simp only [decide_eq_true_eq] at hab hbc ⊢
        omega)
      (fun a b => by
        simp only [Bool.or_eq_true, decide_eq_true_eq]
        omega)
      (sh4 candidates)
    simp only [SortScatterWitAffected]
    exact (hpw.imp (fun hab => by simpa using hab)).chain'

/-- C7 witness: identity shuffles over singleton inputs. -/
theorem ranking_spec_witness :
    (((SortDistribute id id [((1 : CsId), [copysetW])]).map Prod.fst).Perm
        ([((1 : CsId), [copysetW])].map Prod.fst)
     ∧ (∀ it ∈ SortDistribute id id [((1 : CsId), [copysetW])],
         ∃ it2 ∈ [((1 : CsId), [copysetW])],
           it.1 = it2.1 ∧ it.2.Perm it2.2)
     ∧ (SortDistribute id id [((1 : CsId), [copysetW])]).Chain'
         (fun a b => b.2.length ≤ a.2.length))
    ∧ ((SortChunkServerByCopySetNumAsc id
        [(⟨⟨1, 1⟩, false⟩ : ChunkServerInfo)] topoW).Perm
        [(⟨⟨1, 1⟩, false⟩ : ChunkServerInfo)]
      ∧ (SortChunkServerByCopySetNumAsc id
        [(⟨⟨1, 1⟩, false⟩ : ChunkServerInfo)] topoW).Chain'
         (fun a b => findD (copysetNumInCsOf topoW) a.info.id 0 ≤
            findD (copysetNumInCsOf topoW) b.info.id 0))
    ∧ ((SortScatterWitAffected id [((1 : CsId), (0 : Int))]).Perm
        [((1 : CsId), (0 : Int))]
      ∧ (SortScatterWitAffected id [((1 : CsId), (0 : Int))]).Chain'
         (fun a b => a.2 ≤ b.2)) :=
  ranking_spec id id id id (fun l => List.Perm.refl l)
    (fun l => List.Perm.refl l) (fun l => List.Perm.refl l)
    (fun l => List.Perm.refl l) [((1 : CsId), [copysetW])]
    [(⟨⟨1, 1⟩, false⟩ : ChunkServerInfo)] topoW [((1 : CsId), (0 : Int))]

end Curve
